import Mathlib

/-!
Verification of the IP_Automation Slack reminder bot (src/reminder.py).

The Python source is shallowly embedded: pure text processing functions
(regex field extraction, mention extraction, addressee decision) become
executable Lean functions on lists of characters, and the stateful
reconciliation cycle `check_and_remind` becomes an explicit state
transformer over an environment record that models the remote Slack
channel state and the success or failure of each API call.  The regex
semantics of Python `re.search` (leftmost match, greedy and lazy
quantifiers with backtracking, IGNORECASE, dot not matching newline)
are embedded directly for the specific patterns used in the source.
-/

namespace Reminder

/-- Python truthiness of an optional string: `None` and the empty string
are falsy, every other string is truthy.  Used wherever the source tests
a value with a bare `if x:` or `x and ...` / `x or ...`. -/
def truthy : Option String → Bool
  | none => false
  | some s => !s.isEmpty

/-- Python `a or b` on optional strings: returns `a` when `a` is truthy,
otherwise `b`. -/
def orElsePy (a b : Option String) : Option String :=
  if truthy a then a else b

/-- ASCII whitespace as matched by the regex class `\s` (and, on the
ASCII inputs this development handles, stripped by Python `str.strip`). -/
def isSpace (c : Char) : Bool :=
  c = ' ' || c = '\t' || c = '\n' || c = '\r' || c = '\x0b' || c = '\x0c'

/-- ASCII alphanumeric, as matched by the class `[A-Z0-9]` under
`re.IGNORECASE` (the flag makes the class match lowercase letters too). -/
def isAlnumA (c : Char) : Bool :=
  ('A' ≤ c && c ≤ 'Z') || ('a' ≤ c && c ≤ 'z') || ('0' ≤ c && c ≤ '9')

/-- ASCII word character or hyphen, as matched by `[\w-]` (restricted to
the ASCII range, which covers every input considered here). -/
def isWordHyphen (c : Char) : Bool :=
  isAlnumA c || c = '_' || c = '-'

/-- Python `str.strip` on a list of characters: drop leading and
trailing whitespace. -/
def stripChars (s : List Char) : List Char :=
  ((s.dropWhile isSpace).reverse.dropWhile isSpace).reverse

/-- Match a literal pattern case-insensitively at the head of the input
(the `re.IGNORECASE` flag applied to literal regex text); on success
return the remaining input. -/
def matchLit : List Char → List Char → Option (List Char)
  | [], s => some s
  | _ :: _, [] => none
  | p :: ps, c :: cs => if p.toLower = c.toLower then matchLit ps cs else none

/-- The tail `\s*(.+?)(?:\n|$)` of every field pattern, with the
backtracking semantics of the Python engine: `\s*` greedily consumes
whitespace (including newlines) and backtracks one character at a time
until the lazy group `(.+?)` can match at least one non-newline
character; the group then extends minimally until the next newline or
the end of the input.  Returns the captured group. -/
def valueAfterColon : List Char → Option (List Char)
  | [] => none
  | c :: cs =>
    if isSpace c then
      match valueAfterColon cs with
      | some r => some r
      | none => if c = '\n' then none else some ((c :: cs).takeWhile (fun d => d ≠ '\n'))
    else
      some ((c :: cs).takeWhile (fun d => d ≠ '\n'))

/-- Label matcher for a plain field pattern `Label:`: the literal label
followed by a colon, case-insensitively. -/
def matchPlainLabel (label : String) (s : List Char) : Option (List Char) :=
  match matchLit label.toList s with
  | some (':' :: r) => some r
  | _ => none

/-- Label matcher for the pattern `Customer(?:\s*Name)?:`: the greedy
optional group first tries to consume `\s*Name`, falling back to the
empty match, and the colon must follow. -/
def matchCustomerLabel (s : List Char) : Option (List Char) :=
  match matchLit "Customer".toList s with
  | none => none
  | some rest =>
    match matchLit "Name".toList (rest.dropWhile isSpace) with
    | some (':' :: r) => some r
    | _ =>
      match rest with
      | ':' :: r => some r
      | _ => none

/-- One attempt of the full field pattern at the current position:
label, colon, then the value tail. -/
def tryFieldAt (labelMatch : List Char → Option (List Char)) (s : List Char) :
    Option (List Char) :=
  match labelMatch s with
  | some rest => valueAfterColon rest
  | none => none

/-- `re.search` for a field pattern: try every start position from left
to right and return the first successful capture. -/
def searchField (labelMatch : List Char → Option (List Char)) :
    List Char → Option (List Char)
  | [] => tryFieldAt labelMatch []
  | c :: cs =>
    match tryFieldAt labelMatch (c :: cs) with
    | some v => some v
    | none => searchField labelMatch cs

/-- One field extraction as performed by `extract_ticket_info`: search
for the pattern, and strip the captured value. -/
def extractField (labelMatch : List Char → Option (List Char)) (text : String) :
    Option String :=
  (searchField labelMatch text.toList).map (fun v => String.mk (stripChars v))

/-- The result of `extract_ticket_info`: a mapping from the six fixed
field names to optional values; a field absent from the Python dict is
`none` here. -/
structure TicketInfo where
  date : Option String
  province : Option String
  project : Option String
  type : Option String
  customer : Option String
  description : Option String
deriving DecidableEq, Repr

/-- Embedding of `extract_ticket_info` (src/reminder.py lines 93-111):
for each of the six fields, `re.search` the case-insensitive pattern
`Label:\s*(.+?)(?:\n|$)` (with the `Customer(?:\s*Name)?:` variant for
Customer) and record the stripped first capture; fields with no match
are omitted. -/
def extract_ticket_info (text : String) : TicketInfo :=
  { date := extractField (matchPlainLabel "Date") text
    province := extractField (matchPlainLabel "Province") text
    project := extractField (matchPlainLabel "Project") text
    type := extractField (matchPlainLabel "Type") text
    customer := extractField matchCustomerLabel text
    description := extractField (matchPlainLabel "Description") text }

/-- Spec-side value semantics of the field pattern, stated from the
spec's words rather than from the backtracking engine: the value of a
match is the text from the first non-whitespace character after the
label's colon up to the end of that line.  When only whitespace follows
the colon, the pattern still matches if some non-newline character is
present among it (the greedy whitespace consumer gives one character
back), and the value is the last such whitespace character — which
trims to the empty string.  Compared against `valueAfterColon`, the
direct embedding of the engine, in `valueAfterColon_eq_spec`. -/
def specValueAfterColon (rest : List Char) : Option (List Char) :=
  match rest.dropWhile isSpace with
  | c :: cs => some ((c :: cs).takeWhile (fun d => d ≠ '\n'))
  | [] =>
    match (rest.filter (fun c => c ≠ '\n')).getLast? with
    | some w => some [w]
    | none => none

/-- Spec-side attempt of the field pattern at one position: the label
and colon, then the spec-side value. -/
def tryFieldAtSpec (labelMatch : List Char → Option (List Char)) (s : List Char) :
    Option (List Char) :=
  match labelMatch s with
  | some rest => specValueAfterColon rest
  | none => none

/-- Spec-side search, stated from the spec's words "the first matching
value": the value at the least start index at which the pattern
matches, expressed by scanning the indices 0 to length in order. -/
def specSearchField (labelMatch : List Char → Option (List Char)) (s : List Char) :
    Option (List Char) :=
  (List.range (s.length + 1)).findSome? (fun i => tryFieldAtSpec labelMatch (s.drop i))

/-- Spec-side field extraction: the first matching value, trimmed of
surrounding whitespace; no match means the field is omitted. -/
def specExtractField (labelMatch : List Char → Option (List Char)) (text : String) :
    Option String :=
  (specSearchField labelMatch text.toList).map (fun v => String.mk (stripChars v))

/-- The Field Extractor contract stated from the spec's words (section
4.1): for each of the six fixed field names, the first matching value
of the case-insensitive label pattern, trimmed, with unmatched fields
omitted.  `extract_ticket_info` is proved equal to this for every body. -/
def extract_ticket_info_spec (text : String) : TicketInfo :=
  { date := specExtractField (matchPlainLabel "Date") text
    province := specExtractField (matchPlainLabel "Province") text
    project := specExtractField (matchPlainLabel "Project") text
    type := specExtractField (matchPlainLabel "Type") text
    customer := specExtractField matchCustomerLabel text
    description := specExtractField (matchPlainLabel "Description") text }

/-- The scan performed by `.*?<@([A-Z0-9]+)>` after a matched
`Sender:` label: the lazy `.*?` advances one non-newline character at a
time, and at each position the engine tries `<@`, a maximal nonempty
alphanumeric run (case-insensitive class), and a closing `>`.  The scan
stops at a newline because `.` does not match `\n`.  Returns the
captured identifier characters. -/
def findMention : List Char → Option (List Char)
  | [] => none
  | c :: cs =>
    if c = '\n' then none
    else if c = '<' then
      match cs with
      | '@' :: rest =>
        let run := rest.takeWhile isAlnumA
        match rest.drop run.length with
        | '>' :: _ => if run.isEmpty then findMention cs else some run
        | _ => findMention cs
      | _ => findMention cs
    else findMention cs

/-- `re.search` for `Sender:.*?<@([A-Z0-9]+)>` (case-insensitive): try
every start position left to right; at each, the literal label must
match and a mention must follow on the same line. -/
def searchSenderMention : List Char → Option (List Char)
  | [] => none
  | c :: cs =>
    match matchLit "Sender:".toList (c :: cs) with
    | some rest =>
      match findMention rest with
      | some uid => some uid
      | none => searchSenderMention cs
    | none => searchSenderMention cs

/-- The capture group `([^*\n<>]+)` of the plain sender fallback
pattern: a maximal nonempty run of characters outside the excluded
class. -/
def senderClassCapture (l : List Char) : Option (List Char) :=
  let run := l.takeWhile (fun c => c ≠ '*' && c ≠ '\n' && c ≠ '<' && c ≠ '>')
  if run.isEmpty then none else some run

/-- The greedy optional `@?` followed by the capture group, with
backtracking: try with the `@` consumed first, then without. -/
def senderAfterAt (l : List Char) : Option (List Char) :=
  match l with
  | '@' :: r =>
    match senderClassCapture r with
    | some v => some v
    | none => senderClassCapture l
  | _ => senderClassCapture l

/-- The greedy optional `\*?` followed by the rest of the fallback
pattern, with backtracking. -/
def senderAfterStar (l : List Char) : Option (List Char) :=
  match l with
  | '*' :: r =>
    match senderAfterAt r with
    | some v => some v
    | none => senderAfterAt l
  | _ => senderAfterAt l

/-- The greedy `\s*` head of the fallback pattern tail, backtracking
one whitespace character at a time when the rest of the pattern cannot
match. -/
def senderWsThen : List Char → Option (List Char)
  | [] => none
  | c :: cs =>
    if isSpace c then
      match senderWsThen cs with
      | some v => some v
      | none => senderAfterStar (c :: cs)
    else senderAfterStar (c :: cs)

/-- `re.search` for the fallback pattern
`Sender:\s*\*?@?([^*\n<>]+)` (case-insensitive). -/
def searchSenderPlain : List Char → Option (List Char)
  | [] => none
  | c :: cs =>
    match matchLit "Sender:".toList (c :: cs) with
    | some rest =>
      match senderWsThen rest with
      | some v => some v
      | none => searchSenderPlain cs
    | none => searchSenderPlain cs

/-- Embedding of `extract_sender_from_ticket` (src/reminder.py lines
169-184): first the structured pattern `Sender:.*?<@([A-Z0-9]+)>`; on
success return the identifier and the rendered mention.  Otherwise the
plain fallback `Sender:\s*\*?@?([^*\n<>]+)`; when its stripped capture
is nonempty return no identifier and an at-mention.  Otherwise nothing. -/
def extract_sender_from_ticket (text : String) : Option String × Option String :=
  match searchSenderMention text.toList with
  | some uid => (some (String.mk uid), some ("<@" ++ String.mk uid ++ ">"))
  | none =>
    match searchSenderPlain text.toList with
    | some cap =>
      let name := String.mk (stripChars cap)
      if !name.isEmpty then (none, some ("@" ++ name)) else (none, none)
    | none => (none, none)

/-- The scan performed by `.*?<[@!]([A-Z0-9^]+)>` after a matched
`To Team:` label, analogous to `findMention` but accepting `@` or `!`
after `<` and carets inside the identifier class. -/
def findTeamMention : List Char → Option (List Char)
  | [] => none
  | c :: cs =>
    if c = '\n' then none
    else if c = '<' then
      match cs with
      | d :: rest =>
        if d = '@' || d = '!' then
          let run := rest.takeWhile (fun e => isAlnumA e || e = '^')
          match rest.drop run.length with
          | '>' :: _ => if run.isEmpty then findTeamMention cs else some run
          | _ => findTeamMention cs
        else findTeamMention cs
      | [] => findTeamMention cs
    else findTeamMention cs

/-- `re.search` for `To Team:.*?<[@!]([A-Z0-9^]+)>` (case-insensitive). -/
def searchTeamMention : List Char → Option (List Char)
  | [] => none
  | c :: cs =>
    match matchLit "To Team:".toList (c :: cs) with
    | some rest =>
      match findTeamMention rest with
      | some tid => some tid
      | none => searchTeamMention cs
    | none => searchTeamMention cs

/-- The scan performed by `.*?@([\w-]+)` after a matched `To Team:`
label: lazy advance, not crossing a newline, to an `@` followed by a
maximal nonempty run of word characters or hyphens. -/
def findTeamAt : List Char → Option (List Char)
  | [] => none
  | c :: cs =>
    if c = '\n' then none
    else if c = '@' then
      let run := cs.takeWhile isWordHyphen
      if run.isEmpty then findTeamAt cs else some run
    else findTeamAt cs

/-- `re.search` for the fallback pattern `To Team:.*?@([\w-]+)`
(case-insensitive). -/
def searchTeamPlain : List Char → Option (List Char)
  | [] => none
  | c :: cs =>
    match matchLit "To Team:".toList (c :: cs) with
    | some rest =>
      match findTeamAt rest with
      | some v => some v
      | none => searchTeamPlain cs
    | none => searchTeamPlain cs

/-- Python `s.split("^")[1]` for a string known to contain a caret: the
segment between the first and second caret. -/
def splitCaretSecond (l : List Char) : List Char :=
  ((l.dropWhile (fun c => c ≠ '^')).drop 1).takeWhile (fun c => c ≠ '^')

/-- Embedding of `extract_team_from_ticket` (src/reminder.py lines
187-206): structured pattern first, handling the `subteam^ID` form by
keeping the part after the caret; then the plain `@name` fallback. -/
def extract_team_from_ticket (text : String) : Option String × Option String :=
  match searchTeamMention text.toList with
  | some tid =>
    if tid.contains '^' then
      let t := String.mk (splitCaretSecond tid)
      (some t, some ("<!subteam^" ++ t ++ ">"))
    else (some (String.mk tid), some ("<@" ++ String.mk tid ++ ">"))
  | none =>
    match searchTeamPlain text.toList with
    | some cap =>
      let name := String.mk (stripChars cap)
      if !name.isEmpty then (none, some ("@" ++ name)) else (none, none)
    | none => (none, none)

/-- A thread reply as consumed by `get_last_human_replier`: only the
author, bot marker and subtype fields are inspected. -/
structure Reply where
  user : Option String
  bot_id : Option String
  subtype : Option String
deriving DecidableEq, Repr

/-- Embedding of `get_last_human_replier` (src/reminder.py lines
221-226): scan the replies newest to oldest and return the author of
the first reply with no truthy bot marker and no truthy subtype. -/
def get_last_human_replier (replies : List Reply) : Option String :=
  match replies.reverse.find? (fun r => !truthy r.bot_id && !truthy r.subtype) with
  | some r => r.user
  | none => none

/-- Embedding of the addressee decision of `reply_to_original_thread`
(src/reminder.py lines 234-261): extract sender and team from the
ticket body, find the last human replier, and pick who to remind and a
reason by the source's four-way branch. -/
def reply_to_original_thread_decision (message_text : String) (replies : List Reply) :
    Option String × String :=
  let sender := extract_sender_from_ticket message_text
  let team := extract_team_from_ticket message_text
  let last_replier := get_last_human_replier replies
  if replies.isEmpty then
    (orElsePy sender.2 team.2, "No replies yet")
  else if truthy sender.1 && last_replier == sender.1 then
    (orElsePy team.2 sender.2, "Sender replied, waiting for team")
  else if truthy team.1 && last_replier == team.1 then
    (orElsePy sender.2 team.2, "Team replied, waiting for sender")
  else
    (orElsePy sender.2 team.2, "Waiting for response")

/-! ## The reconciliation cycle

`check_and_remind` is embedded as a state transformer.  The remote
channel state and the outcome of every Slack API call during one cycle
are packaged in an `Env` record; the two module-level lookup tables
(`sent_reminders` and `resolved_messages`) form the `BotState`; the
side-effecting calls issued during the cycle are collected in a trace
of `Action`s, each recording the success information the source
observes. -/

/-- Configuration constant (src/reminder.py line 16). -/
def MONITORED_CHANNEL : String := "#ip-test"

/-- Configuration constant (src/reminder.py line 17). -/
def ALERTS_CHANNEL : String := "#ip_reminder"

/-- Configuration constant (src/reminder.py line 19). -/
def CHECKMARK_EMOJI : String := "white_check_mark"

/-- Configuration constant (src/reminder.py line 20). -/
def CHECKED_EMOJI : String := "eyes"

/-- The outcome of a Slack API call: a payload, or a `SlackApiError`
carrying its message text. -/
inductive ApiResult (α : Type) where
  | ok (val : α)
  | err (msg : String)
deriving DecidableEq, Repr

/-- One reaction on a message, as read from `reactions_get`: the emoji
name (the reacting users are never inspected by the source). -/
structure Reaction where
  name : String
deriving DecidableEq, Repr

/-- Python `"sub" in s` for the two error-message tests of
`has_checkmark_reaction`. -/
def containsSubstr (s sub : List Char) : Bool :=
  match s with
  | [] => decide (sub = [])
  | _ :: rest => (matchLit sub s).isSome || containsSubstr rest sub

/-- Embedding of `has_checkmark_reaction` (src/reminder.py lines
77-90) as a function of the `reactions_get` outcome: on success, true
exactly when some reaction is named `CHECKMARK_EMOJI`; on a
`SlackApiError` the source returns `False` on both branches of its
error-message test (the not-found branch silently, every other error
after logging). -/
def has_checkmark_reaction (res : ApiResult (List Reaction)) : Bool :=
  match res with
  | .ok reactions => reactions.any (fun r => r.name == CHECKMARK_EMOJI)
  | .err e =>
    if containsSubstr e.toList "no_item_specified".toList
        || containsSubstr e.toList "message_not_found".toList then false
    else false

/-- A channel message as consumed by `check_and_remind`: its timestamp
identifier, body, and optional subtype. -/
structure SlackMessage where
  ts : String
  text : String
  subtype : Option String
deriving DecidableEq, Repr

/-- The subtype test of src/reminder.py lines 342-348: skip channel
join/leave/topic/purpose system messages (an absent subtype is `None`,
which is not in the list). -/
def isSystemSubtype : Option String → Bool
  | none => false
  | some s =>
    s == "channel_join" || s == "channel_leave" || s == "channel_topic"
      || s == "channel_purpose"

/-- The module-level mutable state (src/reminder.py lines 23 and 26):
`sent_reminders` maps an original message timestamp to the timestamp of
its posted reminder, and `resolved_messages` is the set of timestamps
whose end-of-ticket notice has been posted. -/
structure BotState where
  sent_reminders : List (String × String)
  resolved_messages : List String
deriving DecidableEq, Repr

/-- The initial state: both tables empty. -/
def initialState : BotState := { sent_reminders := [], resolved_messages := [] }

/-- Dictionary lookup on the association list representing
`sent_reminders`. -/
def lookupA (l : List (String × String)) (k : String) : Option String :=
  match l with
  | [] => none
  | (a, b) :: rest => if a = k then some b else lookupA rest k

/-- Dictionary deletion (`del sent_reminders[ts]`). -/
def eraseA (l : List (String × String)) (k : String) : List (String × String) :=
  l.filter (fun p => p.1 ≠ k)

/-- One side-effecting Slack call issued during a cycle, with the
success information the source observes: the reminder post records the
`ts` returned by `chat_postMessage` (`none` when the call raised), the
delete records whether `chat_delete` succeeded, and the thread reply,
reaction and end-notice record whether their internally caught calls
succeeded. -/
inductive Action where
  | postReminder (ts : String) (result : Option String)
  | postThreadReply (ts : String) (ok : Bool)
  | addReaction (ts : String) (ok : Bool)
  | deleteReminder (ts : String) (reminderTs : String) (ok : Bool)
  | postDateEnded (ts : String) (ok : Bool)
deriving DecidableEq, Repr

/-- The remote channel state and per-call outcomes for one cycle of
`check_and_remind`: channel name resolution (`get_channel_id`), the
fetched message history, the `reactions_get` outcome per message
timestamp, the `ts` returned by the reminder `chat_postMessage` per
ticket timestamp (`none` models a raised `SlackApiError`), the
`chat_delete` outcome per reminder timestamp, and the outcomes of the
internally caught thread-reply, reaction and end-notice calls. -/
structure Env where
  resolve : String → Option String
  history : List SlackMessage
  reactionsGet : String → ApiResult (List Reaction)
  postReminderTs : String → Option String
  deleteOk : String → Bool
  threadOk : String → Bool
  reactOk : String → Bool
  dateEndedOk : String → Bool

/-- The per-message body of the `check_and_remind` loop
(src/reminder.py lines 337-387).  System-subtype messages are skipped.
A message with the checkmark reaction first has its reminder deleted
(the table entry is removed only when the delete succeeds), then the
end-of-ticket notice is posted and the timestamp recorded when it is
not yet in `resolved_messages` (the source records it whether or not
the internally caught post succeeded).  A message without the checkmark
and with an existing table entry is skipped.  Otherwise a reminder is
posted; only when `send_reminder` returns a truthy timestamp is the
entry recorded and the thread reply and checked reaction attempted. -/
def processMessage (env : Env) (st : BotState) (m : SlackMessage) :
    BotState × List Action :=
  if isSystemSubtype m.subtype then (st, [])
  else if has_checkmark_reaction (env.reactionsGet m.ts) then
    let stTr :=
      match lookupA st.sent_reminders m.ts with
      | some rts =>
        if env.deleteOk rts then
          ({ st with sent_reminders := eraseA st.sent_reminders m.ts },
           [Action.deleteReminder m.ts rts true])
        else (st, [Action.deleteReminder m.ts rts false])
      | none => (st, [])
    if m.ts ∈ stTr.1.resolved_messages then stTr
    else
      ({ stTr.1 with resolved_messages := m.ts :: stTr.1.resolved_messages },
       stTr.2 ++ [Action.postDateEnded m.ts (env.dateEndedOk m.ts)])
  else if (lookupA st.sent_reminders m.ts).isSome then (st, [])
  else
    let r := env.postReminderTs m.ts
    if truthy r then
      ({ st with sent_reminders := (m.ts, r.getD "") :: st.sent_reminders },
       [Action.postReminder m.ts r,
        Action.postThreadReply m.ts (env.threadOk m.ts),
        Action.addReaction m.ts (env.reactOk m.ts)])
    else (st, [Action.postReminder m.ts r])

/-- The loop of `check_and_remind` over the fetched history, threading
the state and concatenating the traces. -/
def processMessages (env : Env) : List SlackMessage → BotState → BotState × List Action
  | [], st => (st, [])
  | m :: ms, st =>
    let p := processMessage env st m
    let q := processMessages env ms p.1
    (q.1, p.2 ++ q.2)

/-- Embedding of `check_and_remind` (src/reminder.py lines 311-393):
resolve both channel names; if either resolution fails, return with no
message fetched, no action issued and the state unchanged; otherwise
process every message of the fetched history. -/
def check_and_remind (env : Env) (st : BotState) : BotState × List Action :=
  match env.resolve MONITORED_CHANNEL with
  | none => (st, [])
  | some _ =>
    match env.resolve ALERTS_CHANNEL with
    | none => (st, [])
    | some _ => processMessages env env.history st

/-- A sequence of reconciliation cycles, one `Env` per cycle, starting
from a given state; returns the final state and the concatenated trace. -/
def runCycles : List Env → BotState → BotState × List Action
  | [], st => (st, [])
  | e :: es, st =>
    let p := check_and_remind e st
    let q := runCycles es p.1
    (q.1, p.2 ++ q.2)

/-! ## Trace analysis helpers -/

/-- Whether an action is the end-of-ticket notice post for a given
ticket timestamp (successful or not). -/
def isDateEndedFor (ts : String) : Action → Bool
  | .postDateEnded t _ => t == ts
  | _ => false

/-- Number of end-of-ticket notice posts for a ticket in a trace. -/
def countDateEnded (tr : List Action) (ts : String) : Nat :=
  (tr.filter (isDateEndedFor ts)).length

/-- Classify an action as a reminder-table event for a given ticket:
`some true` for a successful reminder post (truthy returned timestamp),
`some false` for a successful reminder deletion, `none` otherwise. -/
def reminderEvent (ts : String) : Action → Option Bool
  | .postReminder t r => if t = ts then (if truthy r then some true else none) else none
  | .deleteReminder t _ ok => if t = ts then (if ok then some false else none) else none
  | _ => none

/-- The most recent reminder-table event for a ticket in a trace:
`some true` when the last successful post/delete for the ticket was a
post, `some false` when it was a delete, `none` when neither occurred. -/
def lastReminderEvent (tr : List Action) (ts : String) : Option Bool :=
  tr.reverse.findSome? (reminderEvent ts)

/-- Apply an optional overriding event to a previous boolean. -/
def applyEvt (prev : Bool) : Option Bool → Bool
  | some b => b
  | none => prev

/-- First-of-two on optional events (the right argument is older). -/
def ofirst (a b : Option Bool) : Option Bool :=
  match a with
  | some x => some x
  | none => b

/-- Whether an action is one of the two follow-up alert side effects
(thread reply or checked reaction). -/
def isAlertFollowUp : Action → Bool
  | .postThreadReply _ _ => true
  | .addReaction _ _ => true
  | _ => false

/-! ## Concrete fixtures used by witnesses and counterexamples -/

/-- A single ticket message used by the concrete environments. -/
def msg1 : SlackMessage := { ts := "1.0", text := "Ticket", subtype := none }

/-- Environment with one unresolved ticket whose reminder post fails
(`chat_postMessage` raises, `send_reminder` returns `None`); every
other call would succeed. -/
def envPostFails : Env :=
  { resolve := fun _ => some "C0"
    history := [msg1]
    reactionsGet := fun _ => ApiResult.ok []
    postReminderTs := fun _ => none
    deleteOk := fun _ => true
    threadOk := fun _ => true
    reactOk := fun _ => true
    dateEndedOk := fun _ => true }

/-- Environment with one unresolved ticket whose reminder post succeeds
while both follow-up calls (thread reply and checked reaction) fail. -/
def envFollowUpsFail : Env :=
  { resolve := fun _ => some "C0"
    history := [msg1]
    reactionsGet := fun _ => ApiResult.ok []
    postReminderTs := fun _ => some "9.9"
    deleteOk := fun _ => true
    threadOk := fun _ => false
    reactOk := fun _ => false
    dateEndedOk := fun _ => true }

/-- Environment with one resolved ticket (checkmark present) whose
end-of-ticket notice post fails. -/
def envDateEndedFails : Env :=
  { resolve := fun _ => some "C0"
    history := [msg1]
    reactionsGet := fun _ => ApiResult.ok [{ name := "white_check_mark" }]
    postReminderTs := fun _ => some "9.9"
    deleteOk := fun _ => true
    threadOk := fun _ => true
    reactOk := fun _ => true
    dateEndedOk := fun _ => false }

/-- Environment with one resolved and one unresolved ticket, every API
call succeeding. -/
def envAllOk : Env :=
  { resolve := fun _ => some "C0"
    history := [msg1, { ts := "2.0", text := "Other", subtype := none }]
    reactionsGet := fun ts =>
      if ts = "1.0" then ApiResult.ok [{ name := "white_check_mark" }] else ApiResult.ok []
    postReminderTs := fun _ => some "9.9"
    deleteOk := fun _ => true
    threadOk := fun _ => true
    reactOk := fun _ => true
    dateEndedOk := fun _ => true }

/-- Environment in which no channel name resolves. -/
def envNoChannel : Env :=
  { resolve := fun _ => none
    history := [msg1]
    reactionsGet := fun _ => ApiResult.ok []
    postReminderTs := fun _ => some "9.9"
    deleteOk := fun _ => true
    threadOk := fun _ => true
    reactOk := fun _ => true
    dateEndedOk := fun _ => true }

/-- Ticket body with a structured sender mention and a structured
subteam mention, as in the spec's addressee example. -/
def c5Body : String := "Sender: <@U1>\nTo Team: <!subteam^S1>"

/-- A human thread reply authored by user U1. -/
def replyByU1 : Reply := { user := some "U1", bot_id := none, subtype := none }

/-! ## Helper lemmas -/

lemma searchField_cons (f : List Char → Option (List Char)) (c : Char) (cs : List Char) :
    searchField f (c :: cs) =
      match tryFieldAt f (c :: cs) with
      | some v => some v
      | none => searchField f cs := rfl

lemma searchField_cons_of_fail (f : List Char → Option (List Char)) (c : Char)
    (cs : List Char) (h : tryFieldAt f (c :: cs) = none) :
    searchField f (c :: cs) = searchField f cs := by
  rw [searchField_cons, h]

lemma valueAfterColon_of_nonspace (l : List Char) (hne : l ≠ [])
    (h : ∀ c ∈ l, isSpace c = false) : valueAfterColon l = some l := by
  cases l with
  | nil => exact absurd rfl hne
  | cons c cs =>
    have hc : isSpace c = false := h c (by simp)
    have hnl : ∀ d ∈ c :: cs, d ≠ '\n' := by
      intro d hd hdn
      have := h d hd
      rw [hdn] at this
      simp [isSpace] at this
    have ht : (c :: cs).takeWhile (fun d => d ≠ '\n') = c :: cs := by
      rw [List.takeWhile_eq_self_iff]
      intro x hx
      simpa using hnl x hx
    unfold valueAfterColon
    rw [hc]
    simp only [Bool.false_eq_true, if_false]
    exact congrArg some ht

lemma stripChars_of_nonspace (l : List Char) (h : ∀ c ∈ l, isSpace c = false) :
    stripChars l = l := by
  unfold stripChars
  have h1 : l.dropWhile isSpace = l := by
    cases l with
    | nil => rfl
    | cons c cs => rw [List.dropWhile_cons]; simp [h c (by simp)]
  rw [h1]
  have h2 : l.reverse.dropWhile isSpace = l.reverse := by
    cases hr : l.reverse with
    | nil => rfl
    | cons c cs =>
      rw [List.dropWhile_cons]
      have hcl : c ∈ l := by
        have : c ∈ l.reverse := by rw [hr]; simp
        simpa using this
      simp [h c hcl]
  rw [h2, List.reverse_reverse]

lemma getLast?_cons_isSome (b : Char) (bs : List Char) :
    ((b :: bs).getLast?).isSome = true := by
  induction bs generalizing b with
  | nil => rfl
  | cons e es ih => rw [List.getLast?_cons_cons]; exact ih e

lemma getLast?_cons_any (a : Char) (l : List Char) :
    (a :: l).getLast? = match l.getLast? with
                        | some w => some w
                        | none => some a := by
  cases l with
  | nil => rfl
  | cons b bs =>
    rw [List.getLast?_cons_cons]
    cases h : (b :: bs).getLast? with
    | some w => rfl
    | none =>
      have := getLast?_cons_isSome b bs
      rw [h] at this
      simp at this

lemma specValue_drop_cons (rest : List Char) (d : Char) (ds : List Char)
    (h : rest.dropWhile isSpace = d :: ds) :
    specValueAfterColon rest = some ((d :: ds).takeWhile (fun x => x ≠ '\n')) := by
  unfold specValueAfterColon
  rw [h]

lemma specValue_drop_nil (rest : List Char) (h : rest.dropWhile isSpace = []) :
    specValueAfterColon rest
      = match (rest.filter (fun c => c ≠ '\n')).getLast? with
        | some w => some [w]
        | none => none := by
  unfold specValueAfterColon
  rw [h]

lemma valueAfterColon_eq_spec (rest : List Char) :
    valueAfterColon rest = specValueAfterColon rest := by
  induction rest with
  | nil => rfl
  | cons c cs ih =>
    by_cases hc : isSpace c = true
    · have hdw : (c :: cs).dropWhile isSpace = cs.dropWhile isSpace := by
        rw [List.dropWhile_cons]
        simp [hc]
      unfold valueAfterColon
      rw [hc, if_pos rfl, ih]
      cases hd : cs.dropWhile isSpace with
      | cons d ds =>
        rw [specValue_drop_cons cs d ds hd,
            specValue_drop_cons (c :: cs) d ds (by rw [hdw, hd])]
      | nil =>
        rw [specValue_drop_nil cs hd, specValue_drop_nil (c :: cs) (by rw [hdw, hd])]
        cases hg : (cs.filter (fun x => x ≠ '\n')).getLast? with
        | some w =>
          have hR : ((c :: cs).filter (fun x => x ≠ '\n')).getLast? = some w := by
            by_cases hcn : c = '\n'
            · rw [List.filter_cons, if_neg (by simp [hcn])]
              exact hg
            · rw [List.filter_cons, if_pos (by simp [hcn]), getLast?_cons_any, hg]
          rw [hR]
        | none =>
          have hfnil : cs.filter (fun x => x ≠ '\n') = [] := by
            cases hf : cs.filter (fun x => x ≠ '\n') with
            | nil => rfl
            | cons e es =>
              have := getLast?_cons_isSome e es
              rw [← hf, hg] at this
              simp at this
          by_cases hcn : c = '\n'
          · have hR : ((c :: cs).filter (fun x => x ≠ '\n')).getLast? = none := by
              rw [List.filter_cons, if_neg (by simp [hcn]), hfnil]
              rfl
            rw [hR, if_pos hcn]
          · have hR : ((c :: cs).filter (fun x => x ≠ '\n')).getLast? = some c := by
              rw [List.filter_cons, if_pos (by simp [hcn]), hfnil]
              rfl
            rw [hR, if_neg hcn]
            have htw : cs.takeWhile (fun d => d ≠ '\n') = [] := by
              cases hcs : cs with
              | nil => rfl
              | cons e es =>
                have he : e = '\n' := by
                  by_contra hne
                  rw [hcs, List.filter_cons, if_pos (by simp [hne])] at hfnil
                  exact List.cons_ne_nil _ _ hfnil
                rw [List.takeWhile_cons]
                simp [he]
            rw [List.takeWhile_cons]
            simp only [show (decide (c ≠ '\n')) = true by simp [hcn], if_true, htw]
    · have hcf : isSpace c = false := by simpa using hc
      have hdw : (c :: cs).dropWhile isSpace = c :: cs := by
        rw [List.dropWhile_cons]
        simp [hcf]
      unfold valueAfterColon
      rw [hcf]
      rw [specValue_drop_cons (c :: cs) c cs hdw]
      simp

lemma tryFieldAt_eq_spec (f : List Char → Option (List Char)) (s : List Char) :
    tryFieldAt f s = tryFieldAtSpec f s := by
  unfold tryFieldAt tryFieldAtSpec
  cases h : f s with
  | none => rfl
  | some rest => exact valueAfterColon_eq_spec rest

lemma findSome_map {α β γ : Type} (g : α → β) (f : β → Option γ) (l : List α) :
    (l.map g).findSome? f = l.findSome? (fun a => f (g a)) := by
  induction l with
  | nil => rfl
  | cons a l ih =>
    simp only [List.map_cons, List.findSome?_cons]
    cases f (g a) <;> simp [ih]

lemma specSearchField_cons (f : List Char → Option (List Char)) (c : Char)
    (cs : List Char) :
    specSearchField f (c :: cs)
      = match tryFieldAtSpec f (c :: cs) with
        | some v => some v
        | none => specSearchField f cs := by
  unfold specSearchField
  rw [show (c :: cs).length + 1 = cs.length + 1 + 1 from rfl, List.range_succ_eq_map,
      List.findSome?_cons, findSome_map]
  simp only [List.drop_zero, Nat.succ_eq_add_one, List.drop_succ_cons]
  cases h : tryFieldAtSpec f (c :: cs) <;> simp [h]

lemma searchField_eq_spec (f : List Char → Option (List Char)) (s : List Char) :
    searchField f s = specSearchField f s := by
  induction s with
  | nil =>
    show tryFieldAt f [] = specSearchField f []
    rw [tryFieldAt_eq_spec]
    unfold specSearchField
    rw [show List.range (([] : List Char).length + 1) = [0] from rfl]
    cases h : tryFieldAtSpec f [] <;> simp [List.findSome?_cons, h]
  | cons c cs ih =>
    rw [specSearchField_cons, searchField_cons, tryFieldAt_eq_spec]
    cases h : tryFieldAtSpec f (c :: cs) with
    | some v => rfl
    | none => rw [ih]

lemma extractField_eq_spec (f : List Char → Option (List Char)) (text : String) :
    extractField f text = specExtractField f text := by
  unfold extractField specExtractField
  rw [searchField_eq_spec]

lemma matchLit_self_append (p rest : List Char) : matchLit p (p ++ rest) = some rest := by
  induction p with
  | nil => rfl
  | cons c cs ih => simp [matchLit, ih]

lemma findMention_cons (c : Char) (cs : List Char) :
    findMention (c :: cs) =
      if c = '\n' then none
      else if c = '<' then
        match cs with
        | '@' :: rest =>
          let run := rest.takeWhile isAlnumA
          match rest.drop run.length with
          | '>' :: _ => if run.isEmpty then findMention cs else some run
          | _ => findMention cs
        | _ => findMention cs
      else findMention cs := rfl

lemma findMention_append_skip (g rest : List Char) (h : ∀ c ∈ g, c ≠ '\n' ∧ c ≠ '<') :
    findMention (g ++ rest) = findMention rest := by
  induction g with
  | nil => rfl
  | cons c cs ih =>
    have hc := h c (by simp)
    rw [List.cons_append, findMention_cons, if_neg hc.1, if_neg hc.2]
    exact ih (fun d hd => h d (by simp [hd]))

lemma searchSenderMention_cons (c : Char) (cs : List Char) :
    searchSenderMention (c :: cs) =
      match matchLit "Sender:".toList (c :: cs) with
      | some rest =>
        match findMention rest with
        | some uid => some uid
        | none => searchSenderMention cs
      | none => searchSenderMention cs := rfl

lemma lookupA_eraseA_self (l : List (String × String)) (k : String) :
    lookupA (eraseA l k) k = none := by
  induction l with
  | nil => rfl
  | cons p rest ih =>
    obtain ⟨a, b⟩ := p
    by_cases h : a = k
    · simp [eraseA, List.filter_cons, h] at *
      exact ih
    · simp [eraseA, List.filter_cons, h, lookupA] at *
      exact ih

lemma lookupA_eraseA_ne (l : List (String × String)) (k k' : String) (h : k' ≠ k) :
    lookupA (eraseA l k) k' = lookupA l k' := by
  induction l with
  | nil => rfl
  | cons p rest ih =>
    obtain ⟨a, b⟩ := p
    by_cases ha : a = k
    · subst ha
      simp [eraseA, List.filter_cons, lookupA, Ne.symm h] at *
      exact ih
    · by_cases ha' : a = k'
      · subst ha'
        simp [eraseA, List.filter_cons, ha, lookupA]
      · simp [eraseA, List.filter_cons, ha, lookupA, ha'] at *
        exact ih

lemma lookupA_cons_ne (a b : String) (l : List (String × String)) (k : String)
    (h : a ≠ k) : lookupA ((a, b) :: l) k = lookupA l k := by
  simp [lookupA, h]

/-- Per-message fixed point: processing the message from this state
issues no action and leaves the state unchanged. -/
def settled (env : Env) (st : BotState) (m : SlackMessage) : Prop :=
  processMessage env st m = (st, [])

lemma settled_iff (env : Env) (st : BotState) (m : SlackMessage) :
    settled env st m ↔
      (isSystemSubtype m.subtype = true ∨
       (has_checkmark_reaction (env.reactionsGet m.ts) = true ∧
        lookupA st.sent_reminders m.ts = none ∧ m.ts ∈ st.resolved_messages) ∨
       (has_checkmark_reaction (env.reactionsGet m.ts) = false ∧
        (lookupA st.sent_reminders m.ts).isSome = true)) := by
  unfold settled
  by_cases h1 : isSystemSubtype m.subtype = true
  · simp [processMessage, h1]
  · have h1f : isSystemSubtype m.subtype = false := by simpa using h1
    by_cases h2 : has_checkmark_reaction (env.reactionsGet m.ts) = true
    · cases h3 : lookupA st.sent_reminders m.ts with
      | none =>
        by_cases h5 : m.ts ∈ st.resolved_messages
        · simp [processMessage, h1f, h2, h3, h5]
        · simp [processMessage, h1f, h2, h3, h5]
      | some rts =>
        by_cases h4 : env.deleteOk rts = true
        · by_cases h5 : m.ts ∈ st.resolved_messages
          · simp [processMessage, h1f, h2, h3, h4, h5]
          · simp [processMessage, h1f, h2, h3, h4, h5]
        · have h4f : env.deleteOk rts = false := by simpa using h4
          by_cases h5 : m.ts ∈ st.resolved_messages
          · simp [processMessage, h1f, h2, h3, h4f, h5]
          · simp [processMessage, h1f, h2, h3, h4f, h5]
    · have h2f : has_checkmark_reaction (env.reactionsGet m.ts) = false := by simpa using h2
      cases h3 : lookupA st.sent_reminders m.ts with
      | some rts => simp [processMessage, h1f, h2f, h3]
      | none =>
        by_cases h4 : truthy (env.postReminderTs m.ts) = true
        · simp [processMessage, h1f, h2f, h3, h4]
        · have h4f : truthy (env.postReminderTs m.ts) = false := by simpa using h4
          simp [processMessage, h1f, h2f, h3, h4f]

lemma processMessage_lookup_ne (env : Env) (st : BotState) (m : SlackMessage)
    (ts : String) (h : ts ≠ m.ts) :
    lookupA (processMessage env st m).1.sent_reminders ts = lookupA st.sent_reminders ts := by
  by_cases h1 : isSystemSubtype m.subtype = true
  · simp [processMessage, h1]
  · have h1f : isSystemSubtype m.subtype = false := by simpa using h1
    by_cases h2 : has_checkmark_reaction (env.reactionsGet m.ts) = true
    · cases h3 : lookupA st.sent_reminders m.ts with
      | none =>
        by_cases h5 : m.ts ∈ st.resolved_messages
        · simp [processMessage, h1f, h2, h3, h5]
        · simp [processMessage, h1f, h2, h3, h5]
      | some rts =>
        by_cases h4 : env.deleteOk rts = true
        · by_cases h5 : m.ts ∈ st.resolved_messages
          · simp [processMessage, h1f, h2, h3, h4, h5, lookupA_eraseA_ne _ _ _ h]
          · simp [processMessage, h1f, h2, h3, h4, h5, lookupA_eraseA_ne _ _ _ h]
        · have h4f : env.deleteOk rts = false := by simpa using h4
          by_cases h5 : m.ts ∈ st.resolved_messages
          · simp [processMessage, h1f, h2, h3, h4f, h5]
          · simp [processMessage, h1f, h2, h3, h4f, h5]
    · have h2f : has_checkmark_reaction (env.reactionsGet m.ts) = false := by simpa using h2
      cases h3 : lookupA st.sent_reminders m.ts with
      | some rts => simp [processMessage, h1f, h2f, h3]
      | none =>
        by_cases h4 : truthy (env.postReminderTs m.ts) = true
        · simp [processMessage, h1f, h2f, h3, h4, lookupA_cons_ne _ _ _ _ (Ne.symm h)]
        · have h4f : truthy (env.postReminderTs m.ts) = false := by simpa using h4
          simp [processMessage, h1f, h2f, h3, h4f]

lemma processMessage_resolved_ne (env : Env) (st : BotState) (m : SlackMessage)
    (ts : String) (h : ts ≠ m.ts) :
    (ts ∈ (processMessage env st m).1.resolved_messages) ↔ ts ∈ st.resolved_messages := by
  by_cases h1 : isSystemSubtype m.subtype = true
  · simp [processMessage, h1]
  · have h1f : isSystemSubtype m.subtype = false := by simpa using h1
    by_cases h2 : has_checkmark_reaction (env.reactionsGet m.ts) = true
    · cases h3 : lookupA st.sent_reminders m.ts with
      | none =>
        by_cases h5 : m.ts ∈ st.resolved_messages
        · simp [processMessage, h1f, h2, h3, h5]
        · simp [processMessage, h1f, h2, h3, h5, h]
      | some rts =>
        by_cases h4 : env.deleteOk rts = true
        · by_cases h5 : m.ts ∈ st.resolved_messages
          · simp [processMessage, h1f, h2, h3, h4, h5]
          · simp [processMessage, h1f, h2, h3, h4, h5, h]
        · have h4f : env.deleteOk rts = false := by simpa using h4
          by_cases h5 : m.ts ∈ st.resolved_messages
          · simp [processMessage, h1f, h2, h3, h4f, h5]
          · simp [processMessage, h1f, h2, h3, h4f, h5, h]
    · have h2f : has_checkmark_reaction (env.reactionsGet m.ts) = false := by simpa using h2
      cases h3 : lookupA st.sent_reminders m.ts with
      | some rts => simp [processMessage, h1f, h2f, h3]
      | none =>
        by_cases h4 : truthy (env.postReminderTs m.ts) = true
        · simp [processMessage, h1f, h2f, h3, h4]
        · have h4f : truthy (env.postReminderTs m.ts) = false := by simpa using h4
          simp [processMessage, h1f, h2f, h3, h4f]

lemma processMessage_state_id_resolved (env : Env) (st : BotState) (m : SlackMessage)
    (hc : has_checkmark_reaction (env.reactionsGet m.ts) = true)
    (hl : lookupA st.sent_reminders m.ts = none)
    (hr : m.ts ∈ st.resolved_messages) :
    (processMessage env st m).1 = st := by
  by_cases h1 : isSystemSubtype m.subtype = true
  · simp [processMessage, h1]
  · have h1f : isSystemSubtype m.subtype = false := by simpa using h1
    simp [processMessage, h1f, hc, hl, hr]

lemma processMessage_state_id_unresolved (env : Env) (st : BotState) (m : SlackMessage)
    (hc : has_checkmark_reaction (env.reactionsGet m.ts) = false)
    (hl : (lookupA st.sent_reminders m.ts).isSome = true) :
    (processMessage env st m).1 = st := by
  by_cases h1 : isSystemSubtype m.subtype = true
  · simp [processMessage, h1]
  · have h1f : isSystemSubtype m.subtype = false := by simpa using h1
    cases h3 : lookupA st.sent_reminders m.ts with
    | none => rw [h3] at hl; simp at hl
    | some rts => simp [processMessage, h1f, hc, h3]

lemma settled_preserved (env : Env) (st : BotState) (m m' : SlackMessage)
    (hs : settled env st m) : settled env (processMessage env st m').1 m := by
  rw [settled_iff] at hs
  rcases hs with hsys | ⟨hc, hl, hr⟩ | ⟨hc, hl⟩
  · rw [settled_iff]; exact Or.inl hsys
  · by_cases hts : m.ts = m'.ts
    · have hid : (processMessage env st m').1 = st := by
        apply processMessage_state_id_resolved env st m' <;> rw [← hts] <;> assumption
      rw [settled_iff, hid]
      exact Or.inr (Or.inl ⟨hc, hl, hr⟩)
    · rw [settled_iff]
      refine Or.inr (Or.inl ⟨hc, ?_, ?_⟩)
      · rw [processMessage_lookup_ne env st m' m.ts hts]; exact hl
      · exact (processMessage_resolved_ne env st m' m.ts hts).mpr hr
  · by_cases hts : m.ts = m'.ts
    · have hid : (processMessage env st m').1 = st := by
        apply processMessage_state_id_unresolved env st m' <;> rw [← hts] <;> assumption
      rw [settled_iff, hid]
      exact Or.inr (Or.inr ⟨hc, hl⟩)
    · rw [settled_iff]
      refine Or.inr (Or.inr ⟨hc, ?_⟩)
      rw [processMessage_lookup_ne env st m' m.ts hts]; exact hl

lemma settled_after_process (env : Env) (st : BotState) (m : SlackMessage)
    (hdel : ∀ r, env.deleteOk r = true)
    (hpost : ∀ ts, truthy (env.postReminderTs ts) = true) :
    settled env (processMessage env st m).1 m := by
  rw [settled_iff]
  by_cases h1 : isSystemSubtype m.subtype = true
  · exact Or.inl h1
  · have h1f : isSystemSubtype m.subtype = false := by simpa using h1
    by_cases h2 : has_checkmark_reaction (env.reactionsGet m.ts) = true
    · refine Or.inr (Or.inl ⟨h2, ?_, ?_⟩)
      · cases h3 : lookupA st.sent_reminders m.ts with
        | none =>
          by_cases h5 : m.ts ∈ st.resolved_messages
          · simp [processMessage, h1f, h2, h3, h5]
          · simp [processMessage, h1f, h2, h3, h5]
        | some rts =>
          by_cases h5 : m.ts ∈ st.resolved_messages
          · simp [processMessage, h1f, h2, h3, hdel rts, h5, lookupA_eraseA_self]
          · simp [processMessage, h1f, h2, h3, hdel rts, h5, lookupA_eraseA_self]
      · cases h3 : lookupA st.sent_reminders m.ts with
        | none =>
          by_cases h5 : m.ts ∈ st.resolved_messages
          · simp [processMessage, h1f, h2, h3, h5]
          · simp [processMessage, h1f, h2, h3, h5]
        | some rts =>
          by_cases h5 : m.ts ∈ st.resolved_messages
          · simp [processMessage, h1f, h2, h3, hdel rts, h5]
          · simp [processMessage, h1f, h2, h3, hdel rts, h5]
    · have h2f : has_checkmark_reaction (env.reactionsGet m.ts) = false := by simpa using h2
      refine Or.inr (Or.inr ⟨h2f, ?_⟩)
      cases h3 : lookupA st.sent_reminders m.ts with
      | some rts => simp [processMessage, h1f, h2f, h3]
      | none => simp [processMessage, h1f, h2f, h3, hpost m.ts, lookupA]

lemma processMessages_fst_cons (env : Env) (m : SlackMessage) (ms : List SlackMessage)
    (st : BotState) :
    (processMessages env (m :: ms) st).1
      = (processMessages env ms (processMessage env st m).1).1 := rfl

lemma processMessages_snd_cons (env : Env) (m : SlackMessage) (ms : List SlackMessage)
    (st : BotState) :
    (processMessages env (m :: ms) st).2
      = (processMessage env st m).2
          ++ (processMessages env ms (processMessage env st m).1).2 := rfl

lemma settled_preserved_fold (env : Env) (ms : List SlackMessage) (st : BotState)
    (m : SlackMessage) (hs : settled env st m) :
    settled env (processMessages env ms st).1 m := by
  induction ms generalizing st with
  | nil => exact hs
  | cons m' rest ih =>
    rw [processMessages_fst_cons]
    exact ih (processMessage env st m').1 (settled_preserved env st m m' hs)

lemma all_settled_after (env : Env) (ms : List SlackMessage) (st : BotState)
    (hdel : ∀ r, env.deleteOk r = true)
    (hpost : ∀ ts, truthy (env.postReminderTs ts) = true) :
    ∀ m ∈ ms, settled env (processMessages env ms st).1 m := by
  induction ms generalizing st with
  | nil => intro m hm; simp at hm
  | cons m0 rest ih =>
    intro m hm
    rcases List.mem_cons.mp hm with rfl | hm2
    · rw [processMessages_fst_cons]
      exact settled_preserved_fold env rest _ m (settled_after_process env st m hdel hpost)
    · rw [processMessages_fst_cons]
      exact ih (processMessage env st m0).1 m hm2

lemma processMessages_of_all_settled (env : Env) (ms : List SlackMessage) (st : BotState)
    (h : ∀ m ∈ ms, settled env st m) :
    processMessages env ms st = (st, []) := by
  induction ms with
  | nil => rfl
  | cons m0 rest ih =>
    have h0 : processMessage env st m0 = (st, []) := h m0 (by simp)
    have hr : processMessages env rest st = (st, []) := ih (fun m hm => h m (by simp [hm]))
    simp [processMessages, h0, hr]

lemma findSome_append {α β : Type} (f : α → Option β) (l1 l2 : List α) :
    (l1 ++ l2).findSome? f
      = match l1.findSome? f with
        | some b => some b
        | none => l2.findSome? f := by
  induction l1 with
  | nil => rfl
  | cons a l ih => cases h : f a <;> simp [List.findSome?_cons, h, ih]

lemma lastReminderEvent_append (tr1 tr2 : List Action) (ts : String) :
    lastReminderEvent (tr1 ++ tr2) ts
      = ofirst (lastReminderEvent tr2 ts) (lastReminderEvent tr1 ts) := by
  unfold lastReminderEvent
  rw [List.reverse_append, findSome_append]
  cases List.findSome? (reminderEvent ts) tr2.reverse <;> rfl

lemma applyEvt_ofirst (p : Bool) (e1 e2 : Option Bool) :
    applyEvt (applyEvt p e1) e2 = applyEvt p (ofirst e2 e1) := by
  cases e2 <;> cases e1 <;> rfl

lemma processMessage_sent_char (env : Env) (st : BotState) (m : SlackMessage) (ts : String) :
    (lookupA (processMessage env st m).1.sent_reminders ts).isSome
      = applyEvt (lookupA st.sent_reminders ts).isSome
          (lastReminderEvent (processMessage env st m).2 ts) := by
  by_cases h1 : isSystemSubtype m.subtype = true
  · simp [processMessage, h1, lastReminderEvent, applyEvt]
  · have h1f : isSystemSubtype m.subtype = false := by simpa using h1
    by_cases hts : ts = m.ts
    · subst hts
      by_cases h2 : has_checkmark_reaction (env.reactionsGet m.ts) = true
      · cases h3 : lookupA st.sent_reminders m.ts with
        | none =>
          by_cases h5 : m.ts ∈ st.resolved_messages
          · simp [processMessage, h1f, h2, h3, h5, lastReminderEvent, applyEvt]
          · simp [processMessage, h1f, h2, h3, h5, lastReminderEvent, reminderEvent,
                  List.findSome?, applyEvt]
        | some rts =>
          by_cases h4 : env.deleteOk rts = true
          · by_cases h5 : m.ts ∈ st.resolved_messages
            · simp [processMessage, h1f, h2, h3, h4, h5, lastReminderEvent, reminderEvent,
                    List.findSome?, applyEvt, lookupA_eraseA_self]
            · simp [processMessage, h1f, h2, h3, h4, h5, lastReminderEvent, reminderEvent,
                    List.findSome?, applyEvt, lookupA_eraseA_self]
          · have h4f : env.deleteOk rts = false := by simpa using h4
            by_cases h5 : m.ts ∈ st.resolved_messages
            · simp [processMessage, h1f, h2, h3, h4f, h5, lastReminderEvent, reminderEvent,
                    List.findSome?, applyEvt]
            · simp [processMessage, h1f, h2, h3, h4f, h5, lastReminderEvent, reminderEvent,
                    List.findSome?, applyEvt]
      · have h2f : has_checkmark_reaction (env.reactionsGet m.ts) = false := by simpa using h2
        cases h3 : lookupA st.sent_reminders m.ts with
        | some rts => simp [processMessage, h1f, h2f, h3, lastReminderEvent, applyEvt]
        | none =>
          by_cases h4 : truthy (env.postReminderTs m.ts) = true
          · simp [processMessage, h1f, h2f, h3, h4, lastReminderEvent, reminderEvent,
                  List.findSome?, applyEvt, lookupA]
          · have h4f : truthy (env.postReminderTs m.ts) = false := by simpa using h4
            simp [processMessage, h1f, h2f, h3, h4f, lastReminderEvent, reminderEvent,
                  List.findSome?, applyEvt]
    · have hlook : lookupA (processMessage env st m).1.sent_reminders ts
          = lookupA st.sent_reminders ts := processMessage_lookup_ne env st m ts hts
      rw [hlook]
      by_cases h2 : has_checkmark_reaction (env.reactionsGet m.ts) = true
      · cases h3 : lookupA st.sent_reminders m.ts with
        | none =>
          by_cases h5 : m.ts ∈ st.resolved_messages
          · simp [processMessage, h1f, h2, h3, h5, lastReminderEvent, applyEvt]
          · simp [processMessage, h1f, h2, h3, h5, lastReminderEvent, reminderEvent,
                  List.findSome?, applyEvt]
        | some rts =>
          by_cases h4 : env.deleteOk rts = true
          · by_cases h5 : m.ts ∈ st.resolved_messages
            · simp [processMessage, h1f, h2, h3, h4, h5, lastReminderEvent, reminderEvent,
                    List.findSome?, applyEvt, Ne.symm hts]
            · simp [processMessage, h1f, h2, h3, h4, h5, lastReminderEvent, reminderEvent,
                    List.findSome?, applyEvt, Ne.symm hts]
          · have h4f : env.deleteOk rts = false := by simpa using h4
            by_cases h5 : m.ts ∈ st.resolved_messages
            · simp [processMessage, h1f, h2, h3, h4f, h5, lastReminderEvent, reminderEvent,
                    List.findSome?, applyEvt, Ne.symm hts]
            · simp [processMessage, h1f, h2, h3, h4f, h5, lastReminderEvent, reminderEvent,
                    List.findSome?, applyEvt, Ne.symm hts]
      · have h2f : has_checkmark_reaction (env.reactionsGet m.ts) = false := by simpa using h2
        cases h3 : lookupA st.sent_reminders m.ts with
        | some rts => simp [processMessage, h1f, h2f, h3, lastReminderEvent, applyEvt]
        | none =>
          by_cases h4 : truthy (env.postReminderTs m.ts) = true
          · simp [processMessage, h1f, h2f, h3, h4, lastReminderEvent, reminderEvent,
                  List.findSome?, applyEvt, Ne.symm hts]
          · have h4f : truthy (env.postReminderTs m.ts) = false := by simpa using h4
            simp [processMessage, h1f, h2f, h3, h4f, lastReminderEvent, reminderEvent,
                  List.findSome?, applyEvt, Ne.symm hts]

lemma processMessages_sent_char (env : Env) (ms : List SlackMessage) (st : BotState)
    (ts : String) :
    (lookupA (processMessages env ms st).1.sent_reminders ts).isSome
      = applyEvt (lookupA st.sent_reminders ts).isSome
          (lastReminderEvent (processMessages env ms st).2 ts) := by
  induction ms generalizing st with
  | nil => rfl
  | cons m rest ih =>
    rw [processMessages_fst_cons, processMessages_snd_cons, ih,
        processMessage_sent_char, applyEvt_ofirst, lastReminderEvent_append]

lemma check_and_remind_sent_char (env : Env) (st : BotState) (ts : String) :
    (lookupA (check_and_remind env st).1.sent_reminders ts).isSome
      = applyEvt (lookupA st.sent_reminders ts).isSome
          (lastReminderEvent (check_and_remind env st).2 ts) := by
  unfold check_and_remind
  cases env.resolve MONITORED_CHANNEL with
  | none => rfl
  | some cm =>
    cases env.resolve ALERTS_CHANNEL with
    | none => rfl
    | some ca => exact processMessages_sent_char env env.history st ts

lemma runCycles_fst_cons (e : Env) (es : List Env) (st : BotState) :
    (runCycles (e :: es) st).1 = (runCycles es (check_and_remind e st).1).1 := rfl

lemma runCycles_snd_cons (e : Env) (es : List Env) (st : BotState) :
    (runCycles (e :: es) st).2
      = (check_and_remind e st).2 ++ (runCycles es (check_and_remind e st).1).2 := rfl

lemma runCycles_sent_char (envs : List Env) (st : BotState) (ts : String) :
    (lookupA (runCycles envs st).1.sent_reminders ts).isSome
      = applyEvt (lookupA st.sent_reminders ts).isSome
          (lastReminderEvent (runCycles envs st).2 ts) := by
  induction envs generalizing st with
  | nil => rfl
  | cons e rest ih =>
    rw [runCycles_fst_cons, runCycles_snd_cons, ih,
        check_and_remind_sent_char, applyEvt_ofirst, lastReminderEvent_append]

lemma countDateEnded_append (tr1 tr2 : List Action) (ts : String) :
    countDateEnded (tr1 ++ tr2) ts = countDateEnded tr1 ts + countDateEnded tr2 ts := by
  simp [countDateEnded, List.filter_append]

lemma processMessage_resolved_mono (env : Env) (st : BotState) (m : SlackMessage)
    (x : String) (hx : x ∈ st.resolved_messages) :
    x ∈ (processMessage env st m).1.resolved_messages := by
  by_cases hts : x = m.ts
  · subst hts
    by_cases h1 : isSystemSubtype m.subtype = true
    · simpa [processMessage, h1] using hx
    · have h1f : isSystemSubtype m.subtype = false := by simpa using h1
      by_cases h2 : has_checkmark_reaction (env.reactionsGet m.ts) = true
      · cases h3 : lookupA st.sent_reminders m.ts with
        | none => simp [processMessage, h1f, h2, h3, hx]
        | some rts =>
          by_cases h4 : env.deleteOk rts = true
          · simp [processMessage, h1f, h2, h3, h4, hx]
          · have h4f : env.deleteOk rts = false := by simpa using h4
            simp [processMessage, h1f, h2, h3, h4f, hx]
      · have h2f : has_checkmark_reaction (env.reactionsGet m.ts) = false := by simpa using h2
        cases h3 : lookupA st.sent_reminders m.ts with
        | some rts => simpa [processMessage, h1f, h2f, h3] using hx
        | none =>
          by_cases h4 : truthy (env.postReminderTs m.ts) = true
          · simpa [processMessage, h1f, h2f, h3, h4] using hx
          · have h4f : truthy (env.postReminderTs m.ts) = false := by simpa using h4
            simpa [processMessage, h1f, h2f, h3, h4f] using hx
  · exact (processMessage_resolved_ne env st m x hts).mpr hx

lemma processMessage_dateEnded_char (env : Env) (st : BotState) (m : SlackMessage)
    (ts : String) :
    countDateEnded (processMessage env st m).2 ts
      = if ts ∈ (processMessage env st m).1.resolved_messages ∧ ts ∉ st.resolved_messages
        then 1 else 0 := by
  by_cases h1 : isSystemSubtype m.subtype = true
  · simp [processMessage, h1, countDateEnded]
  · have h1f : isSystemSubtype m.subtype = false := by simpa using h1
    by_cases h2 : has_checkmark_reaction (env.reactionsGet m.ts) = true
    · cases h3 : lookupA st.sent_reminders m.ts with
      | none =>
        by_cases h5 : m.ts ∈ st.resolved_messages
        · simp [processMessage, h1f, h2, h3, h5, countDateEnded]
        · by_cases hts : ts = m.ts
          · subst hts
            simp [processMessage, h1f, h2, h3, h5, countDateEnded, isDateEndedFor]
          · simp [processMessage, h1f, h2, h3, h5, countDateEnded, isDateEndedFor,
                  Ne.symm hts, hts]
      | some rts =>
        by_cases h4 : env.deleteOk rts = true
        · by_cases h5 : m.ts ∈ st.resolved_messages
          · simp [processMessage, h1f, h2, h3, h4, h5, countDateEnded, isDateEndedFor]
          · by_cases hts : ts = m.ts
            · subst hts
              simp [processMessage, h1f, h2, h3, h4, h5, countDateEnded, isDateEndedFor]
            · simp [processMessage, h1f, h2, h3, h4, h5, countDateEnded, isDateEndedFor,
                    Ne.symm hts, hts]
        · have h4f : env.deleteOk rts = false := by simpa using h4
          by_cases h5 : m.ts ∈ st.resolved_messages
          · simp [processMessage, h1f, h2, h3, h4f, h5, countDateEnded, isDateEndedFor]
          · by_cases hts : ts = m.ts
            · subst hts
              simp [processMessage, h1f, h2, h3, h4f, h5, countDateEnded, isDateEndedFor]
            · simp [processMessage, h1f, h2, h3, h4f, h5, countDateEnded, isDateEndedFor,
                    Ne.symm hts, hts]
    · have h2f : has_checkmark_reaction (env.reactionsGet m.ts) = false := by simpa using h2
      cases h3 : lookupA st.sent_reminders m.ts with
      | some rts => simp [processMessage, h1f, h2f, h3, countDateEnded]
      | none =>
        by_cases h4 : truthy (env.postReminderTs m.ts) = true
        · simp [processMessage, h1f, h2f, h3, h4, countDateEnded, isDateEndedFor]
        · have h4f : truthy (env.postReminderTs m.ts) = false := by simpa using h4
          simp [processMessage, h1f, h2f, h3, h4f, countDateEnded, isDateEndedFor]

lemma processMessages_resolved_mono (env : Env) (ms : List SlackMessage) (st : BotState)
    (x : String) (hx : x ∈ st.resolved_messages) :
    x ∈ (processMessages env ms st).1.resolved_messages := by
  induction ms generalizing st with
  | nil => exact hx
  | cons m rest ih =>
    rw [processMessages_fst_cons]
    exact ih _ (processMessage_resolved_mono env st m x hx)

lemma processMessages_dateEnded_char (env : Env) (ms : List SlackMessage) (st : BotState)
    (ts : String) :
    countDateEnded (processMessages env ms st).2 ts
      = if ts ∈ (processMessages env ms st).1.resolved_messages ∧ ts ∉ st.resolved_messages
        then 1 else 0 := by
  induction ms generalizing st with
  | nil => simp [processMessages, countDateEnded]
  | cons m rest ih =>
    rw [processMessages_fst_cons, processMessages_snd_cons, countDateEnded_append,
        processMessage_dateEnded_char, ih]
    by_cases a : ts ∈ st.resolved_messages
    · have b : ts ∈ (processMessage env st m).1.resolved_messages :=
        processMessage_resolved_mono env st m ts a
      have c : ts ∈ (processMessages env rest (processMessage env st m).1).1.resolved_messages :=
        processMessages_resolved_mono env rest _ ts b
      simp [a, b, c]
    · by_cases b : ts ∈ (processMessage env st m).1.resolved_messages
      · have c : ts ∈ (processMessages env rest (processMessage env st m).1).1.resolved_messages :=
          processMessages_resolved_mono env rest _ ts b
        simp [a, b, c]
      · simp [a, b]

lemma check_and_remind_resolved_mono (env : Env) (st : BotState) (x : String)
    (hx : x ∈ st.resolved_messages) :
    x ∈ (check_and_remind env st).1.resolved_messages := by
  unfold check_and_remind
  cases env.resolve MONITORED_CHANNEL with
  | none => exact hx
  | some cm =>
    cases env.resolve ALERTS_CHANNEL with
    | none => exact hx
    | some ca => exact processMessages_resolved_mono env env.history st x hx

lemma check_and_remind_dateEnded_char (env : Env) (st : BotState) (ts : String) :
    countDateEnded (check_and_remind env st).2 ts
      = if ts ∈ (check_and_remind env st).1.resolved_messages ∧ ts ∉ st.resolved_messages
        then 1 else 0 := by
  unfold check_and_remind
  cases env.resolve MONITORED_CHANNEL with
  | none => simp [countDateEnded]
  | some cm =>
    cases env.resolve ALERTS_CHANNEL with
    | none => simp [countDateEnded]
    | some ca => exact processMessages_dateEnded_char env env.history st ts

lemma runCycles_resolved_mono (envs : List Env) (st : BotState) (x : String)
    (hx : x ∈ st.resolved_messages) :
    x ∈ (runCycles envs st).1.resolved_messages := by
  induction envs generalizing st with
  | nil => exact hx
  | cons e rest ih =>
    rw [runCycles_fst_cons]
    exact ih _ (check_and_remind_resolved_mono e st x hx)

lemma runCycles_dateEnded_char (envs : List Env) (st : BotState) (ts : String) :
    countDateEnded (runCycles envs st).2 ts
      = if ts ∈ (runCycles envs st).1.resolved_messages ∧ ts ∉ st.resolved_messages
        then 1 else 0 := by
  induction envs generalizing st with
  | nil => simp [runCycles, countDateEnded]
  | cons e rest ih =>
    rw [runCycles_fst_cons, runCycles_snd_cons, countDateEnded_append,
        check_and_remind_dateEnded_char, ih]
    by_cases a : ts ∈ st.resolved_messages
    · have b : ts ∈ (check_and_remind e st).1.resolved_messages :=
        check_and_remind_resolved_mono e st ts a
      have c : ts ∈ (runCycles rest (check_and_remind e st).1).1.resolved_messages :=
        runCycles_resolved_mono rest _ ts b
      simp [a, b, c]
    · by_cases b : ts ∈ (check_and_remind e st).1.resolved_messages
      · have c : ts ∈ (runCycles rest (check_and_remind e st).1).1.resolved_messages :=
          runCycles_resolved_mono rest _ ts b
        simp [a, b, c]
      · simp [a, b]

/-! ## Claim theorems -/

/-- C10: `has_checkmark_reaction` returns `false` on every
`SlackApiError` raised while fetching reactions, not only on the
no-item / message-not-found cases, so a ticket whose reactions cannot
be fetched is classified as unresolved for that cycle. -/
theorem C10_has_checkmark_reaction_false_on_error (e : String) :
    has_checkmark_reaction (ApiResult.err e) = false := by
  simp [has_checkmark_reaction]

/-- C9: when either the monitored channel name or the alerts channel
name fails to resolve, `check_and_remind` returns immediately: the
trace of side effects is empty and both lookup tables are unchanged. -/
theorem C9_missing_channel_early_return (env : Env) (st : BotState)
    (h : env.resolve MONITORED_CHANNEL = none ∨ env.resolve ALERTS_CHANNEL = none) :
    check_and_remind env st = (st, []) := by
  unfold check_and_remind
  rcases h with h | h
  · rw [h]
  · rw [h]
    cases env.resolve MONITORED_CHANNEL <;> rfl

/-- Witness for C9 at a concrete environment in which no channel name
resolves. -/
theorem C9_missing_channel_early_return_witness :
    (envNoChannel.resolve MONITORED_CHANNEL = none ∨
      envNoChannel.resolve ALERTS_CHANNEL = none) ∧
    check_and_remind envNoChannel initialState = (initialState, []) :=
  ⟨Or.inl rfl, C9_missing_channel_early_return envNoChannel initialState (Or.inl rfl)⟩

/-- C6: for every message body, `extract_ticket_info` refines the
spec-worded contract `extract_ticket_info_spec`: each of the six fields
carries the first matching value of its case-insensitive label pattern
(the value read at the least matching start index), trimmed of
surrounding whitespace, and every field with no match is omitted
(`none`, not an empty string).  On the spec's example body this yields
exactly the Date and Province fields and omits the other four, and on a
body with two Date lines it yields the first matching value. -/
theorem C6_field_extractor :
    (∀ text : String, extract_ticket_info text = extract_ticket_info_spec text) ∧
    extract_ticket_info "Date: 2024-01-01\nProvince: Ontario\n" =
      { date := some "2024-01-01", province := some "Ontario", project := none,
        type := none, customer := none, description := none } ∧
    (extract_ticket_info "Date: A\nDate: B").date = some "A" := by
  refine ⟨?_, ?_, ?_⟩
  · intro text
    unfold extract_ticket_info extract_ticket_info_spec
    rw [extractField_eq_spec, extractField_eq_spec, extractField_eq_spec,
        extractField_eq_spec, extractField_eq_spec, extractField_eq_spec]
  · decide
  · decide

/-- C7 counterexample: label matching is not anchored at the start of a
line; on the body consisting of the single line containing only
`Update: tomorrow` the Date field is produced from the mid-word match,
refuting the claim that such text yields no field value. -/
theorem C7_counterexample :
    (extract_ticket_info "Update: tomorrow").date = some "tomorrow" ∧
    (extract_ticket_info "Update: tomorrow").date ≠ none := by
  constructor <;> decide

/-- C7 amended: the Field Extractor's label matching is a plain
case-insensitive substring search, not anchored at line start: a label
occurring as a suffix of another word mid-line does produce a field
value (the rest of that line, trimmed). -/
theorem C7_label_matching_unanchored (w : String) (hne : w ≠ "")
    (hch : ∀ c ∈ w.toList, isSpace c = false) :
    (extract_ticket_info ("Update: " ++ w)).date = some w := by
  have hwne : w.toList ≠ [] := by
    intro h0
    apply hne
    have := congrArg String.mk h0
    simpa using this
  have hv : valueAfterColon w.toList = some w.toList :=
    valueAfterColon_of_nonspace _ hwne hch
  have e2 : valueAfterColon (' ' :: w.toList) = some w.toList := by
    unfold valueAfterColon
    rw [show isSpace ' ' = true from rfl]
    simp only [if_true]
    rw [hv]
  have hs : searchField (matchPlainLabel "Date")
      ('U' :: 'p' :: 'd' :: 'a' :: 't' :: 'e' :: ':' :: ' ' :: w.toList)
      = some w.toList := by
    rw [searchField_cons_of_fail (matchPlainLabel "Date") 'U'
          ('p' :: 'd' :: 'a' :: 't' :: 'e' :: ':' :: ' ' :: w.toList) rfl]
    rw [searchField_cons_of_fail (matchPlainLabel "Date") 'p'
          ('d' :: 'a' :: 't' :: 'e' :: ':' :: ' ' :: w.toList) rfl]
    rw [searchField_cons]
    rw [show tryFieldAt (matchPlainLabel "Date")
          ('d' :: 'a' :: 't' :: 'e' :: ':' :: ' ' :: w.toList)
          = valueAfterColon (' ' :: w.toList) from rfl]
    rw [e2]
  show extractField (matchPlainLabel "Date") ("Update: " ++ w) = some w
  unfold extractField
  rw [show ("Update: " ++ w).toList
        = 'U' :: 'p' :: 'd' :: 'a' :: 't' :: 'e' :: ':' :: ' ' :: w.toList from rfl]
  rw [hs]
  show some (String.mk (stripChars w.toList)) = some w
  rw [stripChars_of_nonspace _ hch]
  rfl

/-- Witness for the amended C7 at the concrete suffix `tomorrow`. -/
theorem C7_label_matching_unanchored_witness :
    ("tomorrow" ≠ "" ∧ ∀ c ∈ "tomorrow".toList, isSpace c = false) ∧
    (extract_ticket_info ("Update: " ++ "tomorrow")).date = some "tomorrow" :=
  ⟨⟨by decide, by decide⟩, C7_label_matching_unanchored "tomorrow" (by decide) (by decide)⟩

/-- C8 counterexample: on the body whose `Sender:` label is followed by
a mention only on the next line, the structured pattern does not match
(the lazy gap cannot cross a newline) and the plain fallback captures
the rest of the label's line instead, refuting the claim that a mention
anywhere later in the text is resolved. -/
theorem C8_counterexample :
    extract_sender_from_ticket "Sender: x\n<@U123>" = (none, some "@x") ∧
    extract_sender_from_ticket "Sender: x\n<@U123>" ≠ (some "U123", some "<@U123>") := by
  constructor <;> decide

/-- C8 amended: sender extraction resolves the structured mention when
the `Sender:` label is followed later on the same line by a mention
token (the gap may not contain a newline, nor an earlier `<`). -/
theorem C8_sender_mention_same_line (g : String)
    (h : ∀ c ∈ g.toList, c ≠ '\n' ∧ c ≠ '<') :
    extract_sender_from_ticket ("Sender:" ++ g ++ "<@U123>")
      = (some "U123", some "<@U123>") := by
  have hfm : findMention (g.toList ++ "<@U123>".toList) = some "U123".toList := by
    rw [findMention_append_skip g.toList "<@U123>".toList h]
    decide
  have e1 : matchLit "Sender:".toList
      ('S' :: 'e' :: 'n' :: 'd' :: 'e' :: 'r' :: ':' :: (g.toList ++ "<@U123>".toList))
      = some (g.toList ++ "<@U123>".toList) :=
    matchLit_self_append "Sender:".toList (g.toList ++ "<@U123>".toList)
  have hsm : searchSenderMention (("Sender:" ++ g ++ "<@U123>").toList)
      = some "U123".toList := by
    rw [show ("Sender:" ++ g ++ "<@U123>").toList
          = 'S' :: 'e' :: 'n' :: 'd' :: 'e' :: 'r' :: ':' :: (g.toList ++ "<@U123>".toList)
        from rfl]
    simp only [searchSenderMention_cons, e1, hfm]
  unfold extract_sender_from_ticket
  rw [hsm]
  rfl

/-- Witness for the amended C8 at the concrete same-line gap. -/
theorem C8_sender_mention_same_line_witness :
    (∀ c ∈ " foo ".toList, c ≠ '\n' ∧ c ≠ '<') ∧
    extract_sender_from_ticket ("Sender:" ++ " foo " ++ "<@U123>")
      = (some "U123", some "<@U123>") :=
  ⟨by decide, C8_sender_mention_same_line " foo " (by decide)⟩

/-- C5 counterexample: on the spec's example body with no replies the
decision's reason string is the source's capitalized `No replies yet`,
not the claimed `no replies yet`. -/
theorem C5_counterexample :
    (reply_to_original_thread_decision c5Body []).2 = "No replies yet" ∧
    (reply_to_original_thread_decision c5Body []).2 ≠ "no replies yet" := by
  constructor <;> decide

/-- C5 amended: the Addressee Resolver's decision table with the
source's reason strings: with no replies it addresses the sender's
mention (falling back to the team's when the sender's is not truthy)
with reason `No replies yet`; when the last human replier equals the
resolved sender identifier it addresses the team, falling back to the
sender, with reason `Sender replied, waiting for team`; on the concrete
example body the two cases yield the sender mention referencing U1 and
the subteam mention respectively. -/
theorem C5_addressee_decision_table :
    (∀ body : String, truthy (extract_sender_from_ticket body).2 = true →
      reply_to_original_thread_decision body []
        = ((extract_sender_from_ticket body).2, "No replies yet")) ∧
    (∀ body : String, truthy (extract_sender_from_ticket body).2 = false →
      reply_to_original_thread_decision body []
        = ((extract_team_from_ticket body).2, "No replies yet")) ∧
    (∀ (body : String) (replies : List Reply), replies ≠ [] →
      truthy (extract_sender_from_ticket body).1 = true →
      get_last_human_replier replies = (extract_sender_from_ticket body).1 →
      reply_to_original_thread_decision body replies
        = (orElsePy (extract_team_from_ticket body).2 (extract_sender_from_ticket body).2,
           "Sender replied, waiting for team")) ∧
    reply_to_original_thread_decision c5Body [] = (some "<@U1>", "No replies yet") ∧
    reply_to_original_thread_decision c5Body [replyByU1]
      = (some "<!subteam^S1>", "Sender replied, waiting for team") := by
  refine ⟨?_, ?_, ?_, ?_, ?_⟩
  · intro body h
    simp [reply_to_original_thread_decision, orElsePy, h]
  · intro body h
    simp [reply_to_original_thread_decision, orElsePy, h]
  · intro body replies hne h1 h2
    simp [reply_to_original_thread_decision, hne, h1, h2]
  · decide
  · decide

/-- Witness for the amended C5, discharging the first general case's
hypothesis at the concrete example body. -/
theorem C5_addressee_decision_table_witness :
    truthy (extract_sender_from_ticket c5Body).2 = true ∧
    reply_to_original_thread_decision c5Body []
      = ((extract_sender_from_ticket c5Body).2, "No replies yet") :=
  ⟨by decide, C5_addressee_decision_table.1 c5Body (by decide)⟩

/-- C3 counterexample: with one unresolved no-entry ticket whose
reminder post fails, the cycle's trace is exactly the failed reminder
post; neither the thread reply nor the checked reaction is attempted,
refuting the claim that all three side effects are attempted even when
one fails. -/
theorem C3_counterexample :
    check_and_remind envPostFails initialState
      = (initialState, [Action.postReminder "1.0" none]) ∧
    ((check_and_remind envPostFails initialState).2.any isAlertFollowUp) = false := by
  constructor <;> decide

/-- C3 amended: for an unresolved ticket with no reminder-table entry,
the reminder post is attempted first; when and only when it returns a
truthy timestamp are the thread reply and the checked reaction both
attempted, each regardless of the other's failure; when the reminder
post fails the other two side effects are skipped. -/
theorem C3_alert_follow_ups_require_post_success :
    (∀ (env : Env) (st : BotState) (m : SlackMessage),
      isSystemSubtype m.subtype = false →
      has_checkmark_reaction (env.reactionsGet m.ts) = false →
      lookupA st.sent_reminders m.ts = none →
      ((truthy (env.postReminderTs m.ts) = true →
        (processMessage env st m).2
          = [Action.postReminder m.ts (env.postReminderTs m.ts),
             Action.postThreadReply m.ts (env.threadOk m.ts),
             Action.addReaction m.ts (env.reactOk m.ts)]) ∧
       (truthy (env.postReminderTs m.ts) = false →
        (processMessage env st m).2
          = [Action.postReminder m.ts (env.postReminderTs m.ts)]))) ∧
    check_and_remind envFollowUpsFail initialState
      = ({ sent_reminders := [("1.0", "9.9")], resolved_messages := [] },
         [Action.postReminder "1.0" (some "9.9"),
          Action.postThreadReply "1.0" false,
          Action.addReaction "1.0" false]) := by
  constructor
  · intro env st m h1 h2 h3
    constructor
    · intro h4
      simp [processMessage, h1, h2, h3, h4]
    · intro h4
      simp [processMessage, h1, h2, h3, h4]
  · decide

/-- Witness for the amended C3: the follow-up effects appear in the
trace with their own failure flags when the reminder post succeeds. -/
theorem C3_alert_follow_ups_require_post_success_witness :
    (isSystemSubtype msg1.subtype = false ∧
     has_checkmark_reaction (envFollowUpsFail.reactionsGet msg1.ts) = false ∧
     lookupA initialState.sent_reminders msg1.ts = none ∧
     truthy (envFollowUpsFail.postReminderTs msg1.ts) = true) ∧
    (processMessage envFollowUpsFail initialState msg1).2
      = [Action.postReminder "1.0" (some "9.9"),
         Action.postThreadReply "1.0" false,
         Action.addReaction "1.0" false] :=
  ⟨⟨rfl, rfl, rfl, rfl⟩,
   (C3_alert_follow_ups_require_post_success.1 envFollowUpsFail initialState msg1
      rfl rfl rfl).1 rfl⟩

/-- C1: running `check_and_remind` twice in succession against the same
remote channel state with every API call succeeding (all deletes
succeed and every reminder post returns a truthy timestamp) produces no
side effect at all the second time: the second cycle's trace is empty
(in particular no duplicate reminder post, end-of-ticket notice or
delete call) and the state is unchanged. -/
theorem C1_reconciler_idempotent (env : Env) (st : BotState)
    (hdel : ∀ r, env.deleteOk r = true)
    (hpost : ∀ ts, truthy (env.postReminderTs ts) = true) :
    check_and_remind env (check_and_remind env st).1 = ((check_and_remind env st).1, []) := by
  unfold check_and_remind
  cases hm : env.resolve MONITORED_CHANNEL with
  | none => rfl
  | some cm =>
    cases ha : env.resolve ALERTS_CHANNEL with
    | none => rfl
    | some ca =>
      exact processMessages_of_all_settled env env.history _
        (fun m hm2 => all_settled_after env env.history st hdel hpost m hm2)

/-- Witness for C1 at a concrete all-succeeding environment with one
resolved and one unresolved ticket. -/
theorem C1_reconciler_idempotent_witness :
    ((∀ r, envAllOk.deleteOk r = true) ∧
     (∀ ts, truthy (envAllOk.postReminderTs ts) = true)) ∧
    check_and_remind envAllOk (check_and_remind envAllOk initialState).1
      = ((check_and_remind envAllOk initialState).1, []) :=
  ⟨⟨fun _ => rfl, fun _ => rfl⟩,
   C1_reconciler_idempotent envAllOk initialState (fun _ => rfl) (fun _ => rfl)⟩

/-- C2: after any sequence of reconciliation cycles from the initial
empty state, a ticket timestamp has a `sent_reminders` entry exactly
when the most recent reminder-table event for it in the accumulated
trace is a successful reminder post (a post returning a truthy
timestamp with no later successful deletion). -/
theorem C2_reminder_record_invariant (envs : List Env) (ts : String) :
    (lookupA (runCycles envs initialState).1.sent_reminders ts).isSome = true ↔
      lastReminderEvent (runCycles envs initialState).2 ts = some true := by
  rw [runCycles_sent_char]
  cases hE : lastReminderEvent (runCycles envs initialState).2 ts with
  | none => simp [applyEvt, lookupA, initialState]
  | some b => cases b <;> simp [applyEvt]

/-- C4 counterexample: with one resolved ticket whose end-of-ticket
notice post fails, the timestamp is still added to
`resolved_messages` — the only notice post in the whole run is the
failed one — refuting both the claim that the identifier is added only
after a successful post and the claim that the notice is posted
(successfully) exactly once across the ticket's lifetime. -/
theorem C4_counterexample :
    runCycles [envDateEndedFails] initialState
      = ({ sent_reminders := [], resolved_messages := ["1.0"] },
         [Action.postDateEnded "1.0" false]) ∧
    countDateEnded (runCycles [envDateEndedFails] initialState).2 "1.0" = 1 := by
  constructor <;> decide

/-- C4 amended: a timestamp is never removed from `resolved_messages`,
and over any run from the initial state the end-of-ticket notice for a
ticket is attempted at most once — the timestamp being in the set
exactly when one attempt (successful or not) has been made — so the
notice can be posted successfully at most once, and zero times when
the single attempt fails. -/
theorem C4_resolved_set_add_once_after_attempt :
    (∀ (env : Env) (st : BotState) (x : String), x ∈ st.resolved_messages →
        x ∈ (check_and_remind env st).1.resolved_messages) ∧
    (∀ (envs : List Env) (ts : String),
        countDateEnded (runCycles envs initialState).2 ts ≤ 1 ∧
        ((ts ∈ (runCycles envs initialState).1.resolved_messages) ↔
          countDateEnded (runCycles envs initialState).2 ts = 1)) := by
  refine ⟨check_and_remind_resolved_mono, fun envs ts => ?_⟩
  have h := runCycles_dateEnded_char envs initialState ts
  have hinit : ts ∉ initialState.resolved_messages := by simp [initialState]
  rw [h]
  by_cases c : ts ∈ (runCycles envs initialState).1.resolved_messages
  · simp [c, hinit]
  · simp [c, hinit]

/-- Witness for the amended C4: monotone membership discharged at a
concrete state already containing the timestamp, and the at-most-one
bound at a concrete one-cycle run. -/
theorem C4_resolved_set_add_once_after_attempt_witness :
    ("1.0" ∈ BotState.resolved_messages
        { sent_reminders := [], resolved_messages := ["1.0"] } ∧
     "1.0" ∈ (check_and_remind envAllOk
        { sent_reminders := [], resolved_messages := ["1.0"] }).1.resolved_messages) ∧
    countDateEnded (runCycles [envAllOk] initialState).2 "1.0" ≤ 1 :=
  ⟨⟨by decide,
    C4_resolved_set_add_once_after_attempt.1 envAllOk
      { sent_reminders := [], resolved_messages := ["1.0"] } "1.0" (by decide)⟩,
   (C4_resolved_set_add_once_after_attempt.2 [envAllOk] "1.0").1⟩

end Reminder
